import Mathlib

/-!
Verification of the medgemma-dental detection codec and triage pipeline.

The definitions below are shallow embeddings of the Python sources:
* `parse_bboxes`, `crop_bbox`, `square_pad_and_resize`, `handle_click`,
  `classify_treatment`, `diagnose_tooth` from
  `space_for_inference/space_demo.py` and `space_for_inference/gradio_demo.py`;
* `convert_box_to_paligemma_tokens` and the target construction from
  `convert_bbox_dataset.py` and `create_tooth_problem_dataset.py`;
* `crop_and_resize` from `create_treatment_dataset.py`;
* `convert_florence_to_chest_imagenome_format` (the object-building step)
  from `convert_florence_to_gemma_notation.py`.

Machine floats are modelled as rationals, Python `int()` as truncation
toward zero, and the regular-expression scan of
`r"<loc(\d{4})><loc(\d{4})><loc(\d{4})><loc(\d{4})>\s*([^;<]+)"` as an
explicit left-to-right scanner with the same leftmost, greedy,
non-overlapping semantics restricted to ASCII input.
-/

/-- Python `\s` on ASCII characters: space, tab, newline, return, vertical
tab, form feed. -/
def pyIsSpace (c : Char) : Bool :=
  c = ' ' || c = '\t' || c = '\n' || c = '\r' || c = '\x0b' || c = '\x0c'

/-- Characters admitted by the label group `[^;<]` of the detection
pattern. -/
def isLabelChar (c : Char) : Bool :=
  !(c = ';' || c = '<')

/-- Python `str.strip()`: remove leading and trailing whitespace. -/
def pyStrip (l : List Char) : List Char :=
  ((l.dropWhile pyIsSpace).reverse.dropWhile pyIsSpace).reverse

/-- Decimal digits of a natural number, most significant first, computed
with explicit fuel so that the definition reduces in the kernel. -/
def natDigitsAux : ℕ → ℕ → List Char
  | 0, _ => []
  | fuel + 1, n =>
    if n < 10 then [Nat.digitChar n]
    else natDigitsAux fuel (n / 10) ++ [Nat.digitChar (n % 10)]

/-- Decimal representation of a natural number (no leading zeros). -/
def natDigits (n : ℕ) : List Char := natDigitsAux (n + 1) n

/-- Left-pad a character list with zeros up to width `w`. -/
def padZeros (w : ℕ) (ds : List Char) : List Char :=
  List.replicate (w - ds.length) '0' ++ ds

/-- Numeric value of a list of decimal digit characters, most significant
first (the value `int()` assigns to a captured digit group). -/
def digitsToNat (ds : List Char) : ℕ :=
  ds.foldl (fun a c => 10 * a + (c.toNat - 48)) 0

/-- Python format `f"{n:04d}"`: decimal representation zero-padded to a
minimum total width of four characters; a sign, when present, counts
toward the width. -/
def py04d (n : ℤ) : List Char :=
  if n < 0 then '-' :: padZeros 3 (natDigits (-n).toNat)
  else padZeros 4 (natDigits n.toNat)

/-- One `<locNNNN>` token as produced by the f-string
`f"<loc{v:04d}>"`. -/
def locTok (n : ℤ) : List Char :=
  '<' :: 'l' :: 'o' :: 'c' :: (py04d n ++ ['>'])

/-- `convert_box_to_paligemma_tokens` from `create_tooth_problem_dataset.py`
(and, with renamed parameters, `convert_bbox_dataset.py`): emits the four
location tokens in the order y_min, x_min, y_max, x_max. -/
def convert_box_to_paligemma_tokens (y1 x1 y2 x2 : ℤ) : List Char :=
  locTok y1 ++ locTok x1 ++ locTok y2 ++ locTok x2

/-- The single-detection target string `f"{box_tokens} {label}"` built by
`create_target_for_granularity` / the `target_parts` loop. -/
def encodeTarget (y1 x1 y2 x2 : ℤ) (label : List Char) : List Char :=
  convert_box_to_paligemma_tokens y1 x1 y2 x2 ++ ' ' :: label

/-- One match of the detection pattern: the four parsed quantized
coordinates and the raw label capture. -/
structure RawMatch where
  ymin : ℕ
  xmin : ℕ
  ymax : ℕ
  xmax : ℕ
  label : List Char
deriving DecidableEq

/-- Match the literal token pattern `<loc(\d{4})>` at the head of the
input, returning the parsed integer and the remaining input. -/
def matchLoc : List Char → Option (ℕ × List Char)
  | c0 :: c1 :: c2 :: c3 :: d1 :: d2 :: d3 :: d4 :: c4 :: rest =>
    if c0 = '<' && c1 = 'l' && c2 = 'o' && c3 = 'c' && c4 = '>'
        && d1.isDigit && d2.isDigit && d3.isDigit && d4.isDigit then
      some ((d1.toNat - 48) * 1000 + (d2.toNat - 48) * 100
              + (d3.toNat - 48) * 10 + (d4.toNat - 48), rest)
    else none
  | _ => none

/-- Match `\s*([^;<]+)` at the head of the input with greedy backtracking
semantics: skip maximal whitespace; if a label character follows, the
capture is the maximal run of label characters; otherwise the quantifier
gives back one whitespace character, which becomes the capture. Returns
the capture and the remaining input. -/
def matchLabel (s : List Char) : Option (List Char × List Char) :=
  match s.dropWhile pyIsSpace with
  | c :: t =>
    if isLabelChar c then
      some ((c :: t).takeWhile isLabelChar, (c :: t).dropWhile isLabelChar)
    else
      match (s.takeWhile pyIsSpace).getLast? with
      | some w => some ([w], c :: t)
      | none => none
  | [] =>
    match (s.takeWhile pyIsSpace).getLast? with
    | some w => some ([w], [])
    | none => none

/-- Attempt the full detection pattern at the head of the input. -/
def matchAt (s : List Char) : Option (RawMatch × List Char) :=
  match matchLoc s with
  | none => none
  | some (a, s1) =>
  match matchLoc s1 with
  | none => none
  | some (b, s2) =>
  match matchLoc s2 with
  | none => none
  | some (c, s3) =>
  match matchLoc s3 with
  | none => none
  | some (d, s4) =>
  match matchLabel s4 with
  | none => none
  | some (lab, rest) => some (⟨a, b, c, d, lab⟩, rest)

/-- Left-to-right non-overlapping scan (the semantics of `re.findall`):
try the pattern at each position; on success continue after the match,
on failure advance one character. Fuel bounds the recursion. -/
def findMatchesFuel : ℕ → List Char → List RawMatch
  | 0, _ => []
  | _ + 1, [] => []
  | fuel + 1, c :: rest =>
    match matchAt (c :: rest) with
    | some (m, rest') => m :: findMatchesFuel fuel rest'
    | none => findMatchesFuel fuel rest

/-- All matches of the detection pattern in the input. -/
def findMatches (s : List Char) : List RawMatch :=
  findMatchesFuel s.length s

/-- Result record built by `parse_bboxes`: pixel-space box, trimmed label,
ordinal index, and the treatment flag attached later by
`detect_teeth`. -/
structure Detection where
  x1 : ℚ
  y1 : ℚ
  x2 : ℚ
  y2 : ℚ
  label : List Char
  index : ℕ
  needs_treatment : Option Bool := none
deriving DecidableEq

/-- The per-match body of the `parse_bboxes` loop: rescale each quantized
coordinate by `value / 1023 * dimension` and strip the label. -/
def mkDetection (w h : ℚ) (i : ℕ) (m : RawMatch) : Detection :=
  { x1 := (m.xmin : ℚ) / 1023 * w
    y1 := (m.ymin : ℚ) / 1023 * h
    x2 := (m.xmax : ℚ) / 1023 * w
    y2 := (m.ymax : ℚ) / 1023 * h
    label := pyStrip m.label
    index := i }

/-- `parse_bboxes` from `space_demo.py` / `gradio_demo.py`: scan the raw
model output and build one `Detection` per match, the index being the
position of the match in scan order (`len(detections)` at append time). -/
def parse_bboxes (raw : List Char) (w h : ℚ) : List Detection :=
  (findMatches raw).enum.map (fun p => mkDetection w h p.1 p.2)

/-- Python `int()` applied to a real value: truncation toward zero. -/
def pyInt (q : ℚ) : ℤ :=
  if q < 0 then -⌊-q⌋ else ⌊q⌋

/-- The clamp `max(0, min(v, bound))` applied to each coordinate. -/
def clampInt (v bound : ℤ) : ℤ :=
  max 0 (min v bound)

/-- An integer pixel rectangle, as passed to `image.crop`. -/
structure Rect where
  x1 : ℤ
  y1 : ℤ
  x2 : ℤ
  y2 : ℤ
deriving DecidableEq

/-- The rectangle computed by `crop_bbox(image, bbox, expand_ratio)` in
`space_demo.py` / `gradio_demo.py`: expand each side by
`expand_ratio * bbox_dimension`, truncate with `int()`, then clamp each
coordinate into the image bounds. -/
def crop_bbox_rect (x1 y1 x2 y2 : ℚ) (W H : ℤ) (ratio : ℚ) : Rect :=
  { x1 := clampInt (pyInt (x1 - ratio * (x2 - x1))) W
    y1 := clampInt (pyInt (y1 - ratio * (y2 - y1))) H
    x2 := clampInt (pyInt (x2 + ratio * (x2 - x1))) W
    y2 := clampInt (pyInt (y2 + ratio * (y2 - y1))) H }

/-- The rectangle computed by `crop_and_resize` in
`create_treatment_dataset.py`: expand each side by
`(expand_ratio - 1) * bbox_dimension / 2`, truncate with `int()`, then
clamp into the image bounds. -/
def crop_and_resize_rect (x1 y1 x2 y2 : ℚ) (W H : ℤ) (ratio : ℚ) : Rect :=
  { x1 := clampInt (pyInt (x1 - (ratio - 1) * (x2 - x1) / 2)) W
    y1 := clampInt (pyInt (y1 - (ratio - 1) * (y2 - y1) / 2)) H
    x2 := clampInt (pyInt (x2 + (ratio - 1) * (x2 - x1) / 2)) W
    y2 := clampInt (pyInt (y2 + (ratio - 1) * (y2 - y1) / 2)) H }

/-- Geometric descriptor of one crop-preparation pipeline: the crop
rectangle plus the shared square-pad fill color and resize target. -/
structure CropSpec where
  rect : Rect
  fill : ℕ × ℕ × ℕ
  target : ℕ
deriving DecidableEq

/-- Crop preparation used at inference time by
`classify_treatment` in `space_demo.py`:
`crop_bbox(image, bbox, expand_ratio=0.2)` then
`square_pad_and_resize(cropped, target_size=448)` with black fill. -/
def inference_prep (x1 y1 x2 y2 : ℚ) (W H : ℤ) : CropSpec :=
  { rect := crop_bbox_rect x1 y1 x2 y2 W H (0.2 : ℚ)
    fill := (0, 0, 0)
    target := 448 }

/-- Crop preparation used to build the treatment-classifier training set
by `crop_and_resize` in `create_treatment_dataset.py`
(`expand_ratio=1.2`, black square pad, `target_size=448`). -/
def training_prep (x1 y1 x2 y2 : ℚ) (W H : ℤ) : CropSpec :=
  { rect := crop_and_resize_rect x1 y1 x2 y2 W H (1.2 : ℚ)
    fill := (0, 0, 0)
    target := 448 }

/-- The hit test of `handle_click`:
`x1 <= click_x <= x2 and y1 <= click_y <= y2`. -/
def hitTest (d : Detection) (cx cy : ℚ) : Bool :=
  decide (d.x1 ≤ cx) && decide (cx ≤ d.x2)
    && decide (d.y1 ≤ cy) && decide (cy ≤ d.y2)

/-- The selection loop of `handle_click`: scan the detections in list
order and return the first one whose box contains the click point. -/
def select_at (dets : List Detection) (cx cy : ℚ) : Option Detection :=
  dets.find? (fun d => hitTest d cx cy)

/-- `diagnose_tooth` from `space_demo.py`, with the diagnosis pipeline as
an abstract collaborator; the Boolean records whether the collaborator
was invoked. -/
def space_diagnose_tooth {α : Type} (cropped_image : Option α)
    (needs_treatment : Bool) (pipe : α → String) : String × Bool :=
  match cropped_image with
  | none => ("Please select a tooth first by clicking on a bounding box.", false)
  | some img =>
    if !needs_treatment then
      ("Diagnosis not provided as no treatment diagnosed", false)
    else
      (pipe img, true)

/-- `diagnose_tooth` from `gradio_demo.py`: the function takes no
treatment flag and invokes the diagnosis collaborator for any selected
crop; the Boolean records whether the collaborator was invoked. -/
def gradio_diagnose_tooth {α : Type} (cropped_image : Option α)
    (pipe : α → String) : String × Bool :=
  match cropped_image with
  | none => ("Please select a tooth first by clicking on a bounding box.", false)
  | some img => (pipe img, true)

/-- One object record of `convert_florence_to_chest_imagenome_format` in
`convert_florence_to_gemma_notation.py`. -/
structure FlorenceObj where
  x1 : ℕ
  y1 : ℕ
  x2 : ℕ
  y2 : ℕ
  width : ℕ
  height : ℕ
deriving DecidableEq

/-- The object-building step of `convert_florence_to_chest_imagenome_format`
applied to one match: order the parsed coordinates with `min`/`max` and
record width and height. -/
def florence_object (x1 y1 x2 y2 : ℕ) : FlorenceObj :=
  { x1 := min x1 x2
    y1 := min y1 y2
    x2 := max x1 x2
    y2 := max y1 y2
    width := max x1 x2 - min x1 x2
    height := max y1 y2 - min y1 y2 }

example : pyInt (36.6 : ℚ) = 36 := by norm_num [pyInt]
example : pyInt (-2.5 : ℚ) = -2 := by norm_num [pyInt]
example : natDigits 10000 = ['1', '0', '0', '0', '0'] := by decide
example : py04d 37 = ['0', '0', '3', '7'] := by decide
example : matchLoc ("<loc0123>x".data) = some (123, ['x']) := by decide
example :
    findMatches ("<loc0100><loc0100><loc0200><loc0200> molar".data) =
      [⟨100, 100, 200, 200, " molar".data.tail⟩] := by decide

/-- C9: decoding any raw string yields one `Detection` per well-formed
match of the detection pattern, and the `index` values are exactly
`0..N-1` in left-to-right scan order, regardless of label content. -/
theorem parse_bboxes_index_order (raw : List Char) (w h : ℚ) :
    (parse_bboxes raw w h).length = (findMatches raw).length ∧
    (parse_bboxes raw w h).map Detection.index =
      List.range (findMatches raw).length := by
  constructor
  · simp [parse_bboxes]
  · simp only [parse_bboxes, List.map_map]
    have hcomp :
        (Detection.index ∘ fun p : ℕ × RawMatch => mkDetection w h p.1 p.2) =
          Prod.fst := by
      funext p; rfl
    rw [hcomp, List.enum_map_fst]

/-- C10: the hit test of `handle_click` uses closed bounds on all four
edges, so a click exactly on the boundary of a box counts as a hit on
that detection, and selecting in a one-detection session returns it. -/
theorem hit_test_closed_bounds (d : Detection) (cx cy : ℚ)
    (hx : d.x1 ≤ d.x2) (hy : d.y1 ≤ d.y2)
    (hcx1 : d.x1 ≤ cx) (hcx2 : cx ≤ d.x2)
    (hcy1 : d.y1 ≤ cy) (hcy2 : cy ≤ d.y2) :
    hitTest d d.x1 cy = true ∧ hitTest d d.x2 cy = true ∧
    hitTest d cx d.y1 = true ∧ hitTest d cx d.y2 = true ∧
    select_at [d] d.x1 cy = some d := by
  have h1 : hitTest d d.x1 cy = true := by simp [hitTest, hx, hcy1, hcy2]
  refine ⟨h1, ?_, ?_, ?_, ?_⟩
  · simp [hitTest, hx, hcy1, hcy2]
  · simp [hitTest, hy, hcx1, hcx2]
  · simp [hitTest, hy, hcx1, hcx2]
  · simp [select_at, List.find?, h1]

/-- Witness for `hit_test_closed_bounds` at a concrete box and boundary
click point. -/
theorem hit_test_closed_bounds_witness :
    hitTest ⟨0, 0, 10, 10, [], 0, none⟩ 0 5 = true ∧
    hitTest ⟨0, 0, 10, 10, [], 0, none⟩ 10 5 = true ∧
    hitTest ⟨0, 0, 10, 10, [], 0, none⟩ 5 0 = true ∧
    hitTest ⟨0, 0, 10, 10, [], 0, none⟩ 5 10 = true ∧
    select_at [⟨0, 0, 10, 10, [], 0, none⟩] 0 5 =
      some ⟨0, 0, 10, 10, [], 0, none⟩ :=
  hit_test_closed_bounds ⟨0, 0, 10, 10, [], 0, none⟩ 5 5
    (by decide) (by decide) (by decide) (by decide) (by decide) (by decide)

/-- C3 counterexample: `diagnose_tooth` in `gradio_demo.py` takes no
treatment flag at all, so in a session whose selected detection has
`needs_treatment = false` it still invokes the diagnosis collaborator
for any selected crop, contradicting the claim that the collaborator is
invoked only when `needs_treatment` is true. -/
theorem gradio_diagnose_always_invokes :
    (gradio_diagnose_tooth (some ()) (fun _ => "finding")).2 = true := rfl

/-- C3 amended: in `space_demo.py`, `diagnose_tooth` on a selected crop
with `needs_treatment = false` returns the fixed not-applicable text
without invoking the diagnosis collaborator, and the collaborator runs
only when `needs_treatment` is true. -/
theorem space_diagnose_skips_collaborator {α : Type} (img : α)
    (pipe : α → String) (needs : Bool) :
    (needs = false →
      space_diagnose_tooth (some img) needs pipe =
        ("Diagnosis not provided as no treatment diagnosed", false)) ∧
    ((space_diagnose_tooth (some img) needs pipe).2 = true → needs = true) := by
  cases needs <;> simp [space_diagnose_tooth]

/-- Witness for `space_diagnose_skips_collaborator` with a concrete crop
and collaborator stub. -/
theorem space_diagnose_skips_collaborator_witness :
    space_diagnose_tooth (some ()) false (fun _ => "finding") =
      ("Diagnosis not provided as no treatment diagnosed", false) :=
  (space_diagnose_skips_collaborator () (fun _ => "finding") false).1 rfl

/-- C6 counterexample: `crop_bbox` applied to a box whose extent rounds
to zero simply returns the degenerate clamped region; no `EmptyRegion`
failure exists anywhere in the code. -/
theorem crop_bbox_zero_extent_returns_region :
    crop_bbox_rect 5 5 5 5 100 100 (0.2 : ℚ) = ⟨5, 5, 5, 5⟩ := by
  simp only [crop_bbox_rect, clampInt, pyInt, sub_self, mul_zero, sub_zero,
    add_zero]
  norm_num

/-- C6 amended: `crop_bbox` never fails; a box of zero extent yields a
zero-width, zero-height crop region as an ordinary return value. -/
theorem crop_bbox_zero_extent (x y : ℚ) (W H : ℤ) (r : ℚ) :
    (crop_bbox_rect x y x y W H r).x2 - (crop_bbox_rect x y x y W H r).x1 = 0 ∧
    (crop_bbox_rect x y x y W H r).y2 - (crop_bbox_rect x y x y W H r).y1 = 0 := by
  simp [crop_bbox_rect, sub_self, mul_zero, sub_zero, add_zero]

/-- Helper for C8: `find?` over a list whose `index` fields are
`k, k+1, ...` returns a hit whose index is minimal among all hits. -/
theorem find?_first_hit (cx cy : ℚ) :
    ∀ (l : List Detection) (k : ℕ),
      (∀ i (h : i < l.length), (l.get ⟨i, h⟩).index = k + i) →
      ∀ d ∈ l, hitTest d cx cy = true →
      ∃ sel, l.find? (fun e => hitTest e cx cy) = some sel ∧
        hitTest sel cx cy = true ∧ sel.index ≤ d.index := by
  intro l
  induction l with
  | nil => intro k _ d hd; exact absurd hd (List.not_mem_nil d)
  | cons a t ih =>
    intro k hidx d hd hhit
    by_cases ha : hitTest a cx cy = true
    · refine ⟨a, List.find?_cons_of_pos _ ha, ha, ?_⟩
      have hak : a.index = k := by simpa using hidx 0 (by simp)
      rcases List.mem_cons.mp hd with rfl | hdt
      · omega
      · obtain ⟨n, rfl⟩ := List.get_of_mem hdt
        have hdk : (t.get n).index = k + (n.1 + 1) := by
          simpa using hidx (n.1 + 1) (by simp [Nat.succ_lt_succ n.2])
        omega
    · have hd' : d ∈ t := by
        rcases List.mem_cons.mp hd with rfl | h
        · exact absurd hhit ha
        · exact h
      have hidx' : ∀ i (h : i < t.length), (t.get ⟨i, h⟩).index = (k + 1) + i := by
        intro i hi
        have h2 := hidx (i + 1) (by simpa using Nat.succ_lt_succ hi)
        simpa [Nat.add_comm, Nat.add_assoc, Nat.add_left_comm] using h2
      obtain ⟨sel, hfind, hsel, hle⟩ := ih (k + 1) hidx' d hd' hhit
      refine ⟨sel, ?_, hsel, hle⟩
      rw [List.find?_cons_of_neg _ (by simpa using ha)]
      exact hfind

/-- C8: when the detection list stores its scan position in `index` (as
`parse_bboxes` guarantees), the hit-test loop of `handle_click` scans in
index order and the first containing box wins: the selected detection
contains the click and has an index no larger than that of any other
containing detection. -/
theorem select_at_first_index (dets : List Detection) (cx cy : ℚ)
    (hidx : ∀ i (h : i < dets.length), (dets.get ⟨i, h⟩).index = i)
    (d : Detection) (hd : d ∈ dets) (hhit : hitTest d cx cy = true) :
    ∃ sel, select_at dets cx cy = some sel ∧
      hitTest sel cx cy = true ∧ sel.index ≤ d.index := by
  have h := find?_first_hit cx cy dets 0 (by intro i hi; simpa using hidx i hi)
    d hd hhit
  simpa [select_at] using h

/-- Witness for `select_at_first_index`: two overlapping boxes both
containing the click point (5, 5); the selected detection has index at
most that of the later hit. -/
theorem select_at_first_index_witness :
    ∃ sel,
      select_at [⟨0, 0, 10, 10, [], 0, none⟩, ⟨0, 0, 20, 20, [], 1, none⟩] 5 5 =
        some sel ∧
      hitTest sel 5 5 = true ∧
      sel.index ≤ (⟨0, 0, 20, 20, [], 1, none⟩ : Detection).index :=
  select_at_first_index [⟨0, 0, 10, 10, [], 0, none⟩, ⟨0, 0, 20, 20, [], 1, none⟩]
    5 5
    (by
      intro i h
      have h2 : i < 2 := by simpa using h
      interval_cases i <;> rfl)
    ⟨0, 0, 20, 20, [], 1, none⟩ (by simp) (by decide)

theorem pyInt_mono {q q' : ℚ} (h : q ≤ q') : pyInt q ≤ pyInt q' := by
  unfold pyInt
  by_cases h1 : q < 0 <;> by_cases h2 : q' < 0
  · rw [if_pos h1, if_pos h2]
    have h3 := Int.floor_le_floor (neg_le_neg h)
    omega
  · rw [if_pos h1, if_neg h2]
    have h3 : (0 : ℤ) ≤ ⌊q'⌋ := Int.floor_nonneg.mpr (by linarith)
    have h4 : (0 : ℤ) ≤ ⌊-q⌋ := Int.floor_nonneg.mpr (by linarith)
    omega
  · exact absurd (lt_of_le_of_lt h h2) h1
  · rw [if_neg h1, if_neg h2]
    exact Int.floor_le_floor h

theorem clampInt_nonneg (v bound : ℤ) : 0 ≤ clampInt v bound :=
  le_max_left 0 _

theorem clampInt_le {bound : ℤ} (v : ℤ) (h : 0 ≤ bound) :
    clampInt v bound ≤ bound := by
  unfold clampInt; omega

theorem clampInt_mono {v v' : ℤ} (h : v ≤ v') (bound : ℤ) :
    clampInt v bound ≤ clampInt v' bound := by
  unfold clampInt; omega

theorem crop_bbox_unordered_no_fix :
    ¬((crop_bbox_rect 60 0 40 10 100 100 (0.2 : ℚ)).x1 ≤
      (crop_bbox_rect 60 0 40 10 100 100 (0.2 : ℚ)).x2) := by
  norm_num [crop_bbox_rect, clampInt, pyInt]

theorem crop_bbox_rect_bounds (x1 y1 x2 y2 : ℚ) (W H : ℤ) (r : ℚ)
    (hx : x1 ≤ x2) (hy : y1 ≤ y2) (hr : 0 ≤ r) (hW : 0 ≤ W) (hH : 0 ≤ H) :
    0 ≤ (crop_bbox_rect x1 y1 x2 y2 W H r).x1 ∧
    (crop_bbox_rect x1 y1 x2 y2 W H r).x1 ≤ (crop_bbox_rect x1 y1 x2 y2 W H r).x2 ∧
    (crop_bbox_rect x1 y1 x2 y2 W H r).x2 ≤ W ∧
    0 ≤ (crop_bbox_rect x1 y1 x2 y2 W H r).y1 ∧
    (crop_bbox_rect x1 y1 x2 y2 W H r).y1 ≤ (crop_bbox_rect x1 y1 x2 y2 W H r).y2 ∧
    (crop_bbox_rect x1 y1 x2 y2 W H r).y2 ≤ H := by
  have hxr : (0 : ℚ) ≤ r * (x2 - x1) := mul_nonneg hr (by linarith)
  have hyr : (0 : ℚ) ≤ r * (y2 - y1) := mul_nonneg hr (by linarith)
  have hxe : x1 - r * (x2 - x1) ≤ x2 + r * (x2 - x1) := by linarith
  have hye : y1 - r * (y2 - y1) ≤ y2 + r * (y2 - y1) := by linarith
  exact ⟨clampInt_nonneg _ _, clampInt_mono (pyInt_mono hxe) W, clampInt_le _ hW,
    clampInt_nonneg _ _, clampInt_mono (pyInt_mono hye) H, clampInt_le _ hH⟩

theorem crop_bbox_rect_bounds_witness :
    0 ≤ (crop_bbox_rect 10 10 20 20 100 100 (0.2 : ℚ)).x1 ∧
    (crop_bbox_rect 10 10 20 20 100 100 (0.2 : ℚ)).x1 ≤
      (crop_bbox_rect 10 10 20 20 100 100 (0.2 : ℚ)).x2 ∧
    (crop_bbox_rect 10 10 20 20 100 100 (0.2 : ℚ)).x2 ≤ 100 ∧
    0 ≤ (crop_bbox_rect 10 10 20 20 100 100 (0.2 : ℚ)).y1 ∧
    (crop_bbox_rect 10 10 20 20 100 100 (0.2 : ℚ)).y1 ≤
      (crop_bbox_rect 10 10 20 20 100 100 (0.2 : ℚ)).y2 ∧
    (crop_bbox_rect 10 10 20 20 100 100 (0.2 : ℚ)).y2 ≤ 100 :=
  crop_bbox_rect_bounds 10 10 20 20 100 100 (0.2 : ℚ)
    (by norm_num) (by norm_num) (by norm_num) (by norm_num) (by norm_num)

theorem treatment_crop_pipelines_differ :
    inference_prep 40 40 57 57 100 100 ≠ training_prep 40 40 57 57 100 100 := by
  intro hEq
  have h := congrArg (fun s => s.rect.x1) hEq
  norm_num [inference_prep, training_prep, crop_bbox_rect, crop_and_resize_rect,
    clampInt, pyInt] at h

theorem treatment_crop_conventions (x1 y1 x2 y2 : ℚ) (W H : ℤ) (r : ℚ) :
    crop_bbox_rect x1 y1 x2 y2 W H r =
      crop_and_resize_rect x1 y1 x2 y2 W H (2 * r + 1) ∧
    (inference_prep x1 y1 x2 y2 W H).fill = (training_prep x1 y1 x2 y2 W H).fill ∧
    (inference_prep x1 y1 x2 y2 W H).target =
      (training_prep x1 y1 x2 y2 W H).target ∧
    (inference_prep x1 y1 x2 y2 W H).rect =
      crop_and_resize_rect x1 y1 x2 y2 W H (1.4 : ℚ) := by
  have key : ∀ s : ℚ, crop_bbox_rect x1 y1 x2 y2 W H s =
      crop_and_resize_rect x1 y1 x2 y2 W H (2 * s + 1) := by
    intro s
    unfold crop_bbox_rect crop_and_resize_rect
    have e1 : ∀ a b : ℚ, a - (2 * s + 1 - 1) * b / 2 = a - s * b := by
      intro a b; ring
    have e2 : ∀ a b : ℚ, a + (2 * s + 1 - 1) * b / 2 = a + s * b := by
      intro a b; ring
    rw [e1, e1, e2, e2]
  refine ⟨key r, rfl, rfl, ?_⟩
  have h := key (0.2 : ℚ)
  have h14 : (2 * (0.2 : ℚ) + 1) = (1.4 : ℚ) := by norm_num
  rw [h14] at h
  simpa [inference_prep] using h

theorem natDigitsAux_fuel : ∀ (m f1 f2 : ℕ), m < f1 → m < f2 →
    natDigitsAux f1 m = natDigitsAux f2 m := by
  intro m
  induction m using Nat.strong_induction_on with
  | _ m ih =>
    intro f1 f2 hf1 hf2
    cases f1 with
    | zero => omega
    | succ a =>
      cases f2 with
      | zero => omega
      | succ b =>
        simp only [natDigitsAux]
        by_cases h10 : m < 10
        · simp [h10]
        · simp only [h10, if_false]
          congr 1
          exact ih (m / 10) (by omega) a b (by omega) (by omega)

theorem natDigits_eq (m : ℕ) :
    natDigits m = if m < 10 then [Nat.digitChar m]
      else natDigits (m / 10) ++ [Nat.digitChar (m % 10)] := by
  unfold natDigits
  simp only [natDigitsAux]
  by_cases h10 : m < 10
  · simp [h10]
  · simp only [h10, if_false]
    congr 1
    exact natDigitsAux_fuel (m / 10) m (m / 10 + 1) (by omega) (by omega)

theorem digitChar_facts {k : ℕ} (h : k < 10) :
    (Nat.digitChar k).isDigit = true ∧ (Nat.digitChar k).toNat - 48 = k ∧
    isLabelChar (Nat.digitChar k) = true ∧
    pyIsSpace (Nat.digitChar k) = false := by
  interval_cases k <;> decide

theorem py04d_eq_digits {m : ℕ} (h : m ≤ 9999) :
    py04d (m : ℤ) = [Nat.digitChar (m / 1000), Nat.digitChar (m / 100 % 10),
      Nat.digitChar (m / 10 % 10), Nat.digitChar (m % 10)] := by
  have hnn : ¬((m : ℤ) < 0) := by omega
  rw [py04d, if_neg hnn, Int.toNat_natCast]
  by_cases c1 : m < 10
  · have e1 : m / 1000 = 0 := by omega
    have e2 : m / 100 % 10 = 0 := by omega
    have e3 : m / 10 % 10 = 0 := by omega
    have e4 : m % 10 = m := by omega
    rw [natDigits_eq, if_pos c1, e1, e2, e3, e4]
    rfl
  · by_cases c2 : m < 100
    · have hq : m / 10 < 10 := by omega
      have e1 : m / 1000 = 0 := by omega
      have e2 : m / 100 % 10 = 0 := by omega
      have e3 : m / 10 % 10 = m / 10 := by omega
      rw [natDigits_eq, if_neg c1, natDigits_eq, if_pos hq, e1, e2, e3]
      rfl
    · by_cases c3 : m < 1000
      · have hq1 : ¬(m / 10 < 10) := by omega
        have hq2 : m / 10 / 10 < 10 := by omega
        have ed : m / 10 / 10 = m / 100 := by omega
        have e1 : m / 1000 = 0 := by omega
        have e2 : m / 100 % 10 = m / 100 := by omega
        have e3 : m / 10 % 10 = m / 10 % 10 := rfl
        rw [natDigits_eq, if_neg c1, natDigits_eq, if_neg hq1,
          natDigits_eq, if_pos hq2, ed, e1, e2]
        rfl
      · have hq1 : ¬(m / 10 < 10) := by omega
        have hq2 : ¬(m / 10 / 10 < 10) := by omega
        have hq3 : m / 10 / 10 / 10 < 10 := by omega
        have ed1 : m / 10 / 10 = m / 100 := by omega
        have ed2 : m / 10 / 10 / 10 = m / 1000 := by omega
        have em1 : m / 10 / 10 % 10 = m / 100 % 10 := by omega
        rw [natDigits_eq, if_neg c1, natDigits_eq, if_neg hq1,
          natDigits_eq, if_neg hq2, natDigits_eq, if_pos hq3, ed2, em1]
        rfl

theorem matchLoc_locTok {m : ℕ} (h : m ≤ 9999) (rest : List Char) :
    matchLoc (locTok (m : ℤ) ++ rest) = some (m, rest) := by
  obtain ⟨hd1, hv1, -, -⟩ := digitChar_facts (show m / 1000 < 10 by omega)
  obtain ⟨hd2, hv2, -, -⟩ := digitChar_facts (show m / 100 % 10 < 10 by omega)
  obtain ⟨hd3, hv3, -, -⟩ := digitChar_facts (show m / 10 % 10 < 10 by omega)
  obtain ⟨hd4, hv4, -, -⟩ := digitChar_facts (show m % 10 < 10 by omega)
  rw [locTok, py04d_eq_digits h]
  simp only [List.cons_append, List.nil_append, List.append_assoc,
    List.singleton_append]
  rw [matchLoc]
  rw [if_pos (by simp [hd1, hd2, hd3, hd4])]
  simp only [Option.some.injEq, Prod.mk.injEq, and_true]
  rw [hv1, hv2, hv3, hv4]
  omega

theorem dropWhile_idem (p : Char → Bool) (l : List Char) :
    (l.dropWhile p).dropWhile p = l.dropWhile p := by
  induction l with
  | nil => rfl
  | cons c t ih =>
    by_cases hc : p c = true
    · simp [List.dropWhile_cons, hc, ih]
    · simp [List.dropWhile_cons, hc]

theorem pyStrip_dropWhile (l : List Char) :
    pyStrip (l.dropWhile pyIsSpace) = pyStrip l := by
  unfold pyStrip
  rw [dropWhile_idem]

theorem mem_of_mem_dropWhile {p : Char → Bool} {l : List Char} {c : Char}
    (h : c ∈ l.dropWhile p) : c ∈ l :=
  (List.dropWhile_suffix p).subset h

theorem pyStrip_all_space {l : List Char} (h : ∀ c ∈ l, pyIsSpace c = true) :
    pyStrip l = [] := by
  unfold pyStrip
  rw [List.dropWhile_eq_nil_iff.mpr h]
  rfl

theorem matchLabel_space_label {label : List Char}
    (hlab : ∀ c ∈ label, isLabelChar c = true) :
    ∃ cap, matchLabel (' ' :: label) = some (cap, []) ∧
      pyStrip cap = pyStrip label := by
  have hsp : pyIsSpace ' ' = true := rfl
  have hdw : (' ' :: label).dropWhile pyIsSpace = label.dropWhile pyIsSpace := by
    simp [List.dropWhile_cons, hsp]
  unfold matchLabel
  rw [hdw]
  cases hrest : label.dropWhile pyIsSpace with
  | cons c t =>
    have hsub : ∀ x ∈ (c :: t), isLabelChar x = true := by
      intro x hx
      exact hlab x (mem_of_mem_dropWhile (hrest ▸ hx))
    have hc : isLabelChar c = true := hsub c (List.mem_cons_self c t)
    refine ⟨(c :: t).takeWhile isLabelChar, ?_, ?_⟩
    · simp only [hc, if_true]
      rw [List.dropWhile_eq_nil_iff.mpr hsub]
    · rw [List.takeWhile_eq_self_iff.mpr hsub, ← hrest, pyStrip_dropWhile]
  | nil =>
    have hallws : ∀ c ∈ label, pyIsSpace c = true :=
      List.dropWhile_eq_nil_iff.mp hrest
    cases hg : ((' ' :: label).takeWhile pyIsSpace).getLast? with
    | none =>
      exfalso
      rw [List.takeWhile_eq_self_iff.mpr (by
        intro x hx
        rcases List.mem_cons.mp hx with rfl | hx'
        · exact hsp
        · exact hallws x hx')] at hg
      exact absurd (List.getLast?_eq_none_iff.mp hg) (List.cons_ne_nil ' ' label)
    | some wch =>
      have hwmem : wch ∈ (' ' :: label).takeWhile pyIsSpace :=
        List.mem_of_mem_getLast? (Option.mem_def.mpr hg)
      have hw : pyIsSpace wch = true := by
        have hsubt : ((' ' :: label).takeWhile pyIsSpace) <+: (' ' :: label) :=
          List.takeWhile_prefix pyIsSpace
        rcases List.mem_cons.mp (hsubt.subset hwmem) with rfl | hx'
        · exact hsp
        · exact hallws wch hx'
      refine ⟨[wch], rfl, ?_⟩
      rw [pyStrip_all_space (by intro x hx; rcases List.mem_cons.mp hx with rfl | hx'
                                · exact hw
                                · exact absurd hx' (List.not_mem_nil x)),
        pyStrip_all_space hallws]

theorem matchAt_encodeTarget {y1 x1 y2 x2 : ℕ} (label : List Char)
    (h1 : y1 ≤ 9999) (h2 : x1 ≤ 9999) (h3 : y2 ≤ 9999) (h4 : x2 ≤ 9999)
    (hlab : ∀ c ∈ label, isLabelChar c = true) :
    ∃ cap,
      matchAt (encodeTarget (y1 : ℤ) (x1 : ℤ) (y2 : ℤ) (x2 : ℤ) label) =
        some (⟨y1, x1, y2, x2, cap⟩, []) ∧
      pyStrip cap = pyStrip label := by
  obtain ⟨cap, hml, hstrip⟩ := matchLabel_space_label hlab
  refine ⟨cap, ?_, hstrip⟩
  unfold encodeTarget convert_box_to_paligemma_tokens
  simp only [List.append_assoc]
  unfold matchAt
  simp only [matchLoc_locTok h1, matchLoc_locTok h2, matchLoc_locTok h3,
    matchLoc_locTok h4, hml]

theorem findMatchesFuel_nil (f : ℕ) : findMatchesFuel f [] = [] := by
  cases f <;> rfl

theorem findMatches_single {s : List Char} {m : RawMatch}
    (hne : s ≠ []) (hma : matchAt s = some (m, [])) : findMatches s = [m] := by
  cases s with
  | nil => exact absurd rfl hne
  | cons c r =>
    show findMatchesFuel (c :: r).length (c :: r) = [m]
    rw [List.length_cons]
    simp only [findMatchesFuel, hma, findMatchesFuel_nil]

/-- C2: encoding a box whose four quantized components lie in
`[0, 9999]` with a non-empty label free of bracket and semicolon
characters, then decoding the resulting single-detection string,
recovers exactly one detection whose four quantized coordinates equal
the originals and whose label is the whitespace-trimmed original. -/
theorem encode_decode_roundtrip (y1 x1 y2 x2 : ℕ) (label : List Char) (w h : ℚ)
    (h1 : y1 ≤ 9999) (h2 : x1 ≤ 9999) (h3 : y2 ≤ 9999) (h4 : x2 ≤ 9999)
    (hlab : ∀ c ∈ label, c ≠ '<' ∧ c ≠ '>' ∧ c ≠ ';') (_hne : label ≠ []) :
    ∃ cap,
      findMatches (encodeTarget (y1 : ℤ) (x1 : ℤ) (y2 : ℤ) (x2 : ℤ) label) =
        [⟨y1, x1, y2, x2, cap⟩] ∧
      pyStrip cap = pyStrip label ∧
      parse_bboxes (encodeTarget (y1 : ℤ) (x1 : ℤ) (y2 : ℤ) (x2 : ℤ) label) w h =
        [{ x1 := (x1 : ℚ) / 1023 * w, y1 := (y1 : ℚ) / 1023 * h,
           x2 := (x2 : ℚ) / 1023 * w, y2 := (y2 : ℚ) / 1023 * h,
           label := pyStrip label, index := 0 }] := by
  have hlab' : ∀ c ∈ label, isLabelChar c = true := by
    intro c hc
    obtain ⟨ha, -, hb⟩ := hlab c hc
    simp [isLabelChar, ha, hb]
  obtain ⟨cap, hma, hstrip⟩ :=
    matchAt_encodeTarget label h1 h2 h3 h4 hlab'
  have hne' : encodeTarget (y1 : ℤ) (x1 : ℤ) (y2 : ℤ) (x2 : ℤ) label ≠ [] := by
    unfold encodeTarget convert_box_to_paligemma_tokens locTok
    simp
  have hfm := findMatches_single hne' hma
  refine ⟨cap, hfm, hstrip, ?_⟩
  unfold parse_bboxes
  rw [hfm]
  simp [mkDetection, hstrip, List.enum]

/-- Witness for `encode_decode_roundtrip` at a concrete box and label. -/
theorem encode_decode_roundtrip_witness :
    ∃ cap,
      findMatches (encodeTarget ((100 : ℕ) : ℤ) ((200 : ℕ) : ℤ) ((300 : ℕ) : ℤ)
          ((400 : ℕ) : ℤ) "molar".data) = [⟨100, 200, 300, 400, cap⟩] ∧
      pyStrip cap = pyStrip "molar".data ∧
      parse_bboxes (encodeTarget ((100 : ℕ) : ℤ) ((200 : ℕ) : ℤ) ((300 : ℕ) : ℤ)
          ((400 : ℕ) : ℤ) "molar".data) 1023 1023 =
        [{ x1 := ((200 : ℕ) : ℚ) / 1023 * 1023, y1 := ((100 : ℕ) : ℚ) / 1023 * 1023,
           x2 := ((400 : ℕ) : ℚ) / 1023 * 1023, y2 := ((300 : ℕ) : ℚ) / 1023 * 1023,
           label := pyStrip "molar".data, index := 0 }] :=
  encode_decode_roundtrip 100 200 300 400 "molar".data 1023 1023
    (by norm_num) (by norm_num) (by norm_num) (by norm_num)
    (by decide) (by decide)

theorem py04d_props {m : ℕ} (h : m ≤ 9999) :
    (py04d (m : ℤ)).length = 4 ∧ (∀ c ∈ py04d (m : ℤ), c.isDigit = true) ∧
    digitsToNat (py04d (m : ℤ)) = m := by
  obtain ⟨hd1, hv1, -, -⟩ := digitChar_facts (show m / 1000 < 10 by omega)
  obtain ⟨hd2, hv2, -, -⟩ := digitChar_facts (show m / 100 % 10 < 10 by omega)
  obtain ⟨hd3, hv3, -, -⟩ := digitChar_facts (show m / 10 % 10 < 10 by omega)
  obtain ⟨hd4, hv4, -, -⟩ := digitChar_facts (show m % 10 < 10 by omega)
  rw [py04d_eq_digits h]
  refine ⟨rfl, ?_, ?_⟩
  · intro c hc
    simp only [List.mem_cons, List.not_mem_nil, or_false] at hc
    rcases hc with rfl | rfl | rfl | rfl
    · exact hd1
    · exact hd2
    · exact hd3
    · exact hd4
  · simp only [digitsToNat, List.foldl_cons, List.foldl_nil]
    rw [hv1, hv2, hv3, hv4]
    omega

/-- C5 counterexample: the encoder is Python string formatting and never
raises; a coordinate outside `[0, 9999]` silently yields a token of
non-standard width instead of an `OutOfRange` failure. -/
theorem encode_out_of_range_no_error :
    convert_box_to_paligemma_tokens 10000 123 45 6 =
      "<loc10000><loc0123><loc0045><loc0006>".data := by decide

/-- C5 amended: the encoder is total and never fails. For coordinates
inside `[0, 9999]` it produces four fixed-width, zero-padded decimal
tokens in the order y_min, x_min, y_max, x_max, followed by a single
space and the label; out-of-range coordinates produce tokens of
non-standard width rather than an error. -/
theorem encode_in_range_fixed_width (y1 x1 y2 x2 : ℕ) (label : List Char)
    (h1 : y1 ≤ 9999) (h2 : x1 ≤ 9999) (h3 : y2 ≤ 9999) (h4 : x2 ≤ 9999) :
    ∃ t1 t2 t3 t4 : List Char,
      t1.length = 4 ∧ t2.length = 4 ∧ t3.length = 4 ∧ t4.length = 4 ∧
      (∀ c ∈ t1 ++ t2 ++ t3 ++ t4, c.isDigit = true) ∧
      digitsToNat t1 = y1 ∧ digitsToNat t2 = x1 ∧
      digitsToNat t3 = y2 ∧ digitsToNat t4 = x2 ∧
      encodeTarget (y1 : ℤ) (x1 : ℤ) (y2 : ℤ) (x2 : ℤ) label =
        ('<' :: 'l' :: 'o' :: 'c' :: t1 ++ ['>']) ++
        ('<' :: 'l' :: 'o' :: 'c' :: t2 ++ ['>']) ++
        ('<' :: 'l' :: 'o' :: 'c' :: t3 ++ ['>']) ++
        ('<' :: 'l' :: 'o' :: 'c' :: t4 ++ ['>']) ++ ' ' :: label := by
  obtain ⟨l1, d1, v1⟩ := py04d_props h1
  obtain ⟨l2, d2, v2⟩ := py04d_props h2
  obtain ⟨l3, d3, v3⟩ := py04d_props h3
  obtain ⟨l4, d4, v4⟩ := py04d_props h4
  refine ⟨py04d (y1 : ℤ), py04d (x1 : ℤ), py04d (y2 : ℤ), py04d (x2 : ℤ),
    l1, l2, l3, l4, ?_, v1, v2, v3, v4, ?_⟩
  · intro c hc
    simp only [List.mem_append] at hc
    rcases hc with ((hc | hc) | hc) | hc
    · exact d1 c hc
    · exact d2 c hc
    · exact d3 c hc
    · exact d4 c hc
  · unfold encodeTarget convert_box_to_paligemma_tokens locTok
    simp [List.append_assoc, List.cons_append]

/-- Witness for `encode_in_range_fixed_width` at a concrete box. -/
theorem encode_in_range_fixed_width_witness :
    ∃ t1 t2 t3 t4 : List Char,
      t1.length = 4 ∧ t2.length = 4 ∧ t3.length = 4 ∧ t4.length = 4 ∧
      (∀ c ∈ t1 ++ t2 ++ t3 ++ t4, c.isDigit = true) ∧
      digitsToNat t1 = 1023 ∧ digitsToNat t2 = 0 ∧
      digitsToNat t3 = 512 ∧ digitsToNat t4 = 9999 ∧
      encodeTarget ((1023 : ℕ) : ℤ) ((0 : ℕ) : ℤ) ((512 : ℕ) : ℤ)
          ((9999 : ℕ) : ℤ) "tooth".data =
        ('<' :: 'l' :: 'o' :: 'c' :: t1 ++ ['>']) ++
        ('<' :: 'l' :: 'o' :: 'c' :: t2 ++ ['>']) ++
        ('<' :: 'l' :: 'o' :: 'c' :: t3 ++ ['>']) ++
        ('<' :: 'l' :: 'o' :: 'c' :: t4 ++ ['>']) ++ ' ' :: "tooth".data :=
  encode_in_range_fixed_width 1023 0 512 9999 "tooth".data
    (by norm_num) (by norm_num) (by norm_num) (by norm_num)

/-- C1 counterexample: `parse_bboxes` applies no min/max correction, so
a raw string whose quantized coordinates are in reversed order decodes
to a Detection with `y2 < y1` and `x2 < x1` instead of an ordered or
rejected box. -/
theorem decode_unordered_box_counterexample :
    parse_bboxes "<loc0200><loc0200><loc0100><loc0100> molar".data 1023 1023 =
      [{ x1 := 200, y1 := 200, x2 := 100, y2 := 100,
         label := "molar".data, index := 0 }] ∧
    ∃ d ∈ parse_bboxes "<loc0200><loc0200><loc0100><loc0100> molar".data
        1023 1023, d.y2 < d.y1 ∧ d.x2 < d.x1 := by
  have hfm : findMatches "<loc0200><loc0200><loc0100><loc0100> molar".data =
      [⟨200, 200, 100, 100, "molar".data⟩] := by decide
  have hstrip : pyStrip "molar".data = "molar".data := by decide
  have hp : parse_bboxes "<loc0200><loc0200><loc0100><loc0100> molar".data
      1023 1023 =
      [{ x1 := 200, y1 := 200, x2 := 100, y2 := 100,
         label := "molar".data, index := 0 }] := by
    unfold parse_bboxes
    rw [hfm]
    show [mkDetection 1023 1023 0 ⟨200, 200, 100, 100, "molar".data⟩] = _
    simp only [mkDetection, hstrip, Detection.mk.injEq]
    norm_num
  refine ⟨hp, ?_⟩
  rw [hp]
  exact ⟨_, List.mem_cons_self _ _, by norm_num, by norm_num⟩

/-- C1 amended: the ordering invariant holds for the Florence-format
converter, which corrects unordered inputs with min/max, but not for
the demo decoder: `parse_bboxes` passes every parsed coordinate through
unchanged (rescaled only), so an unordered quantized input produces an
unordered pixel box rather than being corrected or rejected. -/
theorem decode_no_ordering_correction :
    (∀ x1 y1 x2 y2 : ℕ,
      (florence_object x1 y1 x2 y2).x1 ≤ (florence_object x1 y1 x2 y2).x2 ∧
      (florence_object x1 y1 x2 y2).y1 ≤ (florence_object x1 y1 x2 y2).y2) ∧
    (∀ (raw : List Char) (w h : ℚ) (d : Detection), d ∈ parse_bboxes raw w h →
      ∃ m ∈ findMatches raw,
        d.x1 = (m.xmin : ℚ) / 1023 * w ∧ d.y1 = (m.ymin : ℚ) / 1023 * h ∧
        d.x2 = (m.xmax : ℚ) / 1023 * w ∧ d.y2 = (m.ymax : ℚ) / 1023 * h ∧
        d.label = pyStrip m.label) := by
  constructor
  · intro x1 y1 x2 y2
    exact ⟨min_le_max, min_le_max⟩
  · intro raw w h d hd
    unfold parse_bboxes at hd
    rw [List.mem_map] at hd
    obtain ⟨p, hp, rfl⟩ := hd
    exact ⟨p.2, List.get?_mem (List.mem_enum_iff_get?.mp hp),
      rfl, rfl, rfl, rfl, rfl⟩

/-- Witness for `decode_no_ordering_correction`: the pass-through
property applied to a concrete decoded detection. -/
theorem decode_no_ordering_correction_witness :
    ∃ m ∈ findMatches "<loc0001><loc0002><loc0003><loc0004> incisor".data,
      (mkDetection 1023 1023 0 ⟨1, 2, 3, 4, "incisor".data⟩).x1 =
        (m.xmin : ℚ) / 1023 * 1023 ∧
      (mkDetection 1023 1023 0 ⟨1, 2, 3, 4, "incisor".data⟩).y1 =
        (m.ymin : ℚ) / 1023 * 1023 ∧
      (mkDetection 1023 1023 0 ⟨1, 2, 3, 4, "incisor".data⟩).x2 =
        (m.xmax : ℚ) / 1023 * 1023 ∧
      (mkDetection 1023 1023 0 ⟨1, 2, 3, 4, "incisor".data⟩).y2 =
        (m.ymax : ℚ) / 1023 * 1023 ∧
      (mkDetection 1023 1023 0 ⟨1, 2, 3, 4, "incisor".data⟩).label =
        pyStrip m.label := by
  have hfm : findMatches "<loc0001><loc0002><loc0003><loc0004> incisor".data =
      [⟨1, 2, 3, 4, "incisor".data⟩] := by decide
  have hmem : mkDetection 1023 1023 0 ⟨1, 2, 3, 4, "incisor".data⟩ ∈
      parse_bboxes "<loc0001><loc0002><loc0003><loc0004> incisor".data
        1023 1023 := by
    unfold parse_bboxes
    rw [hfm]
    exact List.mem_cons_self _ _
  exact decode_no_ordering_correction.2
    "<loc0001><loc0002><loc0003><loc0004> incisor".data 1023 1023
    (mkDetection 1023 1023 0 ⟨1, 2, 3, 4, "incisor".data⟩) hmem
